import Mathlib

set_option maxHeartbeats 1000000

/- Verification model of the cooking-coach session controller implemented in
   src/frontend/app/page.tsx (the richest variant of the page component).

   JavaScript values that travel over the push stream are modelled by `Json`.
   The two browser-supplied functions the controller calls, JSON.parse and
   new URL, live outside the repository, so they are parameters of the model
   (`Host`); every theorem holds for every choice of those functions, and
   concrete instances are supplied in witnesses and counterexamples.

   React state updates inside one event handler are modelled as immediate
   field updates.  The only place where the deferred nature of setState is
   observable in the source is the read of `recipeName` inside startCooking
   during the same handler that called setRecipeName (page.tsx 308, 350);
   that read only feeds the camera-start and step-image request payloads,
   which no property below inspects, so the model updates recipeName eagerly. -/

inductive Json where
  | null
  | bool (b : Bool)
  | num (n : Int)
  | str (s : String)
  | arr (elems : List Json)
  | obj (fields : List (String × Json))

/-- Property lookup on a JSON object, mirroring JavaScript property access:
`none` plays the role of `undefined` (missing key, or access on a value that
has no such property, e.g. an array or a primitive). -/
def lookupField : List (String × Json) → String → Option Json
  | [], _ => none
  | (k, v) :: rest, key => if k == key then some v else lookupField rest key

def Json.get? : Json → String → Option Json
  | Json.obj fields, key => lookupField fields key
  | _, _ => none

/- String primitives.  The JavaScript string operations the component uses
are modelled structurally over the character list of a `String`, so that
every definition evaluates by kernel reduction on concrete inputs (the
core library versions of trim/startsWith/… recurse on byte positions and
do not).  JS string lengths count UTF-16 units; for the texts handled here
the character count coincides. -/

/-- The whitespace recognised by JS `trim` (the ASCII part; the exotic
Unicode space characters never occur in the payloads modelled here). -/
def jsWhitespaceChar (c : Char) : Bool :=
  c == ' ' || c == '\t' || c == '\n' || c == '\r' || c == '\x0b' || c == '\x0c'

/-- `s.trim()`. -/
def jsTrim (s : String) : String :=
  String.mk (((s.data.dropWhile jsWhitespaceChar).reverse.dropWhile jsWhitespaceChar).reverse)

/-- `s.startsWith(pre)`. -/
def jsStartsWith (s pre : String) : Bool :=
  pre.data.isPrefixOf s.data

/-- `s.endsWith(suf)`. -/
def jsEndsWith (s suf : String) : Bool :=
  suf.data.isSuffixOf s.data

/-- Drop the first `n` characters. -/
def jsDrop (s : String) (n : Nat) : String :=
  String.mk (s.data.drop n)

/-- Keep the first `n` characters. -/
def jsTake (s : String) (n : Nat) : String :=
  String.mk (s.data.take n)

/-- Drop the last `n` characters. -/
def jsDropRight (s : String) (n : Nat) : String :=
  String.mk (s.data.take (s.data.length - n))

/-- `s.length`. -/
def jsLength (s : String) : Nat :=
  s.data.length

/-- ASCII lower-casing of one character (all the case-insensitive regex in
the source has to distinguish is the letters of "json"). -/
def asciiLowerChar (c : Char) : Char :=
  if 'A' ≤ c && c ≤ 'Z' then Char.ofNat (c.toNat + 32) else c

/-- Case-insensitive comparison against a lower-case needle. -/
def jsLowerIs (s needle : String) : Bool :=
  s.data.map asciiLowerChar == needle.data

/-- JavaScript truthiness of a JSON.parse result. -/
def jsTruthy : Json → Bool
  | Json.null => false
  | Json.bool b => b
  | Json.num n => n != 0
  | Json.str s => !s.data.isEmpty
  | Json.arr _ => true
  | Json.obj _ => true

/-- Whether `typeof v === "object"` holds (true for objects, arrays and null). -/
def jsTypeofObject : Json → Bool
  | Json.null => true
  | Json.arr _ => true
  | Json.obj _ => true
  | _ => false

/-- The JavaScript `in` operator restricted to the keys this code probes
(no array index or prototype property is ever among them). -/
def jsHasKey : Json → String → Bool
  | Json.obj fields, key => fields.any (fun kv => kv.1 == key)
  | _, _ => false

/-- Strict equality `v === s` between a JSON.parse result and a JS string. -/
def jsStrictEqString : Json → String → Bool
  | Json.str t, s => t == s
  | _, _ => false

def jsStrictEqStringOpt : Option Json → String → Bool
  | some v, s => jsStrictEqString v s
  | none, _ => false

/-- `d.k === true` for a payload field (page.tsx 191). -/
def jsFieldTrue (d : Json) (key : String) : Bool :=
  match d.get? key with
  | some (Json.bool true) => true
  | _ => false

/-- `v && v.length > 0` for the allergens payload (page.tsx 374). -/
def jsLengthPositive : Option Json → Bool
  | some (Json.arr xs) => !xs.isEmpty
  | some (Json.str s) => !s.data.isEmpty
  | _ => false

def jsTruthyOpt : Option Json → Bool
  | some v => jsTruthy v
  | none => false

/-- The string entries of the detected-allergens array (the backend contract
delivers `allergens : string[] | null`; non-string entries are dropped). -/
def jsStringList : Option Json → List String
  | some (Json.arr xs) => xs.filterMap (fun j => match j with | Json.str s => some s | _ => none)
  | _ => []

/-- The markdown-fence stripping applied to a string step-check payload,
page.tsx 185:
`data.replace(^ fence (json)? ws*, "").replace(ws* fence $, "").trim()`.
Whitespace standing before a trailing fence is removed by the final trim,
so it is not dropped separately here. -/
def stripFenceString (s : String) : String :=
  let s1 :=
    if jsStartsWith s "```" then
      let r := jsDrop s 3
      let r := if jsLowerIs (jsTake r 4) "json" then jsDrop r 4 else r
      String.mk (r.data.dropWhile jsWhitespaceChar)
    else s
  let s2 := if jsEndsWith s1 "```" then jsDropRight s1 3 else s1
  jsTrim s2

inductive Phase where
  | prompt
  | loading
  | allergens
  | coaching
deriving DecidableEq

inductive InputMode where
  | describe
  | url
deriving DecidableEq

/-- The backend requests the controller issues (fire-and-forget from the
point of view of the properties below; responses that matter re-enter the
model as explicit outcomes or actions). -/
inductive Effect where
  | fetchGenerate (food : String)
  | fetchAllergens (food : String)
  | fetchGenerateSafe (food : String) (avoid : List String)
  | fetchSetStep (step : String)
  | cameraStart (recipe : String) (steps : List String)
  | cameraStop
  | loadDetails (step : String)
  | loadCaution (step : String)
  | loadImage (step : String) (recipe : String)
  | ttsRequest (text : String) (isStep : Bool)
deriving DecidableEq

/-- The session state owned by the Home component: every useState hook plus
the mutable refs and the outstanding timers/requests that later mutate it.
`esOpen` models `eventSourceRef.current` being an open connection,
`audioHandle` models `audioRef.current` being non-null, `pendingCommit`
models the un-cancelled 400ms step-transition timeout together with the
step label its closure captured, `pendingTts`/`pendingAnnounce` model the
in-flight TTS fetch and the in-flight announceStep detail fetch, and
`pendingUrlTimers` counts outstanding 1200ms URL-validation timeouts. -/
structure SessionState where
  phase : Phase
  inputMode : InputMode
  promptText : String
  recipeUrl : String
  urlParsed : Bool
  urlParsing : Bool
  pendingUrlTimers : Nat
  currentStep : Nat
  displayStep : Nat
  done : Bool
  animating : Bool
  pendingCommit : Option (Nat × String)
  steps : List String
  stepDetails : List (String × String)
  stepImages : List (String × String)
  recipeName : String
  remySpeech : String
  stepCompleted : Bool
  stepCheckData : Option Json
  apiError : Option String
  cameraActive : Bool
  showCompletionOverlay : Bool
  detectedAllergens : List String
  selectedAllergens : List String
  esOpen : Bool
  audioHandle : Bool
  stepSpeaking : Bool
  pendingTts : Option (String × Bool)
  pendingAnnounce : Option String

/-- The browser-supplied functions the component calls: JSON.parse (returning
`none` when it throws) and the protocol of `new URL` (returning `none` when
the constructor throws). -/
structure Host where
  parseJson : String → Option Json
  urlProtocol : String → Option String

/-- The initial values of every useState/useRef hook (page.tsx 57-89). -/
def initState : SessionState where
  phase := Phase.prompt
  inputMode := InputMode.describe
  promptText := ""
  recipeUrl := ""
  urlParsed := false
  urlParsing := false
  pendingUrlTimers := 0
  currentStep := 0
  displayStep := 0
  done := false
  animating := false
  pendingCommit := none
  steps := []
  stepDetails := []
  stepImages := []
  recipeName := ""
  remySpeech := ""
  stepCompleted := false
  stepCheckData := none
  apiError := none
  cameraActive := false
  showCompletionOverlay := false
  detectedAllergens := []
  selectedAllergens := []
  esOpen := false
  audioHandle := false
  stepSpeaking := false
  pendingTts := none
  pendingAnnounce := none

/-- `currentStepLabelRef.current`, kept equal to `steps[currentStep] ?? ""`
on every step change by the useEffect at page.tsx 108-110. -/
def currentStepLabel (st : SessionState) : String :=
  st.steps.getD st.currentStep ""

/-- page.tsx 43-50: `new URL(str)` must succeed and yield an http(s) protocol. -/
def isValidUrl (urlProtocol : String → Option String) (str : String) : Bool :=
  match urlProtocol str with
  | some p => p == "http:" || p == "https:"
  | none => false

/-- page.tsx 296-299. -/
def canStart (st : SessionState) : Bool :=
  match st.inputMode with
  | InputMode.describe => jsLength (jsTrim st.promptText) > 0
  | InputMode.url => st.urlParsed

/-- page.tsx 280-288: record the edit, clear the parsed/parsing flags, and if
the trimmed text is a valid URL start a 1200ms validation timer.  The source
never cancels an earlier timer. -/
def handleUrlChange (urlProtocol : String → Option String) (st : SessionState)
    (val : String) : SessionState :=
  let st1 := { st with recipeUrl := val, urlParsed := false, urlParsing := false }
  if isValidUrl urlProtocol (jsTrim val) then
    { st1 with urlParsing := true, pendingUrlTimers := st1.pendingUrlTimers + 1 }
  else st1

/-- One outstanding URL-validation timeout fires (page.tsx 286): it
unconditionally marks the URL parsed, whatever the field holds now. -/
def fireUrlTimer (st : SessionState) : SessionState :=
  match st.pendingUrlTimers with
  | 0 => st
  | n + 1 => { st with pendingUrlTimers := n, urlParsing := false, urlParsed := true }

/-- page.tsx 290-294. -/
def switchMode (st : SessionState) (mode : InputMode) : SessionState :=
  { st with inputMode := mode, urlParsed := false, urlParsing := false }

/-- Synchronous part of `speak` (page.tsx 126-141): stop and release whatever
is playing, raise the step-speaking flag for announcements, then issue the
TTS request.  The asynchronous completion is `ttsResolve`. -/
def speak (st : SessionState) (text : String) (isStepAnnouncement : Bool) :
    SessionState × List Effect :=
  let st1 := { st with audioHandle := false }
  let st2 := if isStepAnnouncement then { st1 with stepSpeaking := true } else st1
  ({ st2 with pendingTts := some (text, isStepAnnouncement) },
   [Effect.ttsRequest text isStepAnnouncement])

/-- The TTS fetch settles (page.tsx 142-161).  On success a new Audio element
is stored in `audioRef` and playback begins; on a non-ok response or a thrown
fetch the step-speaking flag is cleared and nothing plays. -/
def ttsResolve (st : SessionState) (success : Bool) : SessionState :=
  match st.pendingTts with
  | none => st
  | some (_, isStep) =>
    if success then { st with pendingTts := none, audioHandle := true }
    else { st with pendingTts := none,
                   stepSpeaking := if isStep then false else st.stepSpeaking }

/-- Playback reaches its end (or errors): the cleanup registered at
page.tsx 151-156 revokes the object URL and clears the step-speaking flag;
`audioRef.current` is left pointing at the finished element. -/
def audioEnded (st : SessionState) : SessionState :=
  { st with stepSpeaking := false }

/-- page.tsx 166-168 and 215: opening the stream always closes any previous
connection first, so a single boolean tracks the one live connection. -/
def connectSSE (st : SessionState) : SessionState :=
  { st with esOpen := true }

/-- `setStepCompleted(true)` together with the completion-overlay useEffect
(page.tsx 113-122) that shows the overlay when the flag turns true. -/
def setStepCompletedTrue (st : SessionState) : SessionState :=
  { st with stepCompleted := true,
            showCompletionOverlay :=
              if st.stepCompleted then st.showCompletionOverlay else true }

/-- The staleness guard of the step-check branch (page.tsx 177):
`!msg.step || msg.step !== currentStepLabelRef.current`. -/
def staleStepCheck (st : SessionState) (stepVal : Option Json) : Bool :=
  match stepVal with
  | none => true
  | some sv => !jsTruthy sv || !jsStrictEqString sv (currentStepLabel st)

/-- The step-check branch of the stream handler (page.tsx 174-192). -/
def handleStepCheck (parse : String → Option Json) (st : SessionState)
    (stepVal dataVal : Option Json) : SessionState × List Effect :=
  if staleStepCheck st stepVal then (st, [])
  else
    let data : Option Json :=
      match dataVal with
      | some (Json.str s) =>
        (match parse (stripFenceString s) with
         | some j => some j
         | none => some Json.null)
      | other => other
    match data with
    | some d =>
      if jsTruthy d && jsTypeofObject d then
        let st1 := { st with stepCheckData := some d }
        (if jsFieldTrue d "completed" then setStepCompletedTrue st1 else st1, [])
      else (st, [])
    | none => (st, [])

/-- The second defensive filter of the speech branch (page.tsx 198-201):
the trimmed text parses as JSON to a truthy object-typed value carrying a
step-check key. -/
def speechLooksLikeStepCheck (parse : String → Option Json) (text : String) : Bool :=
  match parse text with
  | some j =>
    jsTruthy j && jsTypeofObject j &&
      (jsHasKey j "completed" || jsHasKey j "state" || jsHasKey j "action")
  | none => false

/-- The speech branch of the stream handler (page.tsx 193-205).  A non-string
`data` makes `.trim()` throw, which the surrounding try swallows. -/
def handleSpeech (parse : String → Option Json) (st : SessionState)
    (dataVal : Option Json) : SessionState × List Effect :=
  match dataVal with
  | some (Json.str s0) =>
    let text := jsTrim s0
    if jsStartsWith text "\x7b" || jsStartsWith text "```" || jsStartsWith text "[" then
      (st, [])
    else if speechLooksLikeStepCheck parse text then (st, [])
    else
      let st1 := { st with remySpeech := text }
      if st1.stepSpeaking then (st1, []) else speak st1 text false
  | _ => (st, [])

/-- Dispatch on the parsed envelope (page.tsx 172-205).  Property access on a
parse result of `null` throws, which the surrounding try swallows. -/
def handleParsed (parse : String → Option Json) (st : SessionState) (msg : Json) :
    SessionState × List Effect :=
  match msg with
  | Json.null => (st, [])
  | msg =>
    if jsStrictEqStringOpt (msg.get? "type") "step_check" then
      handleStepCheck parse st (msg.get? "step") (msg.get? "data")
    else if jsStrictEqStringOpt (msg.get? "type") "speech" then
      handleSpeech parse st (msg.get? "data")
    else (st, [])

/-- One inbound frame through `es.onmessage` (page.tsx 170-209): parse the
envelope, dispatch, and swallow anything thrown along the way. -/
def handleMessage (parse : String → Option Json) (st : SessionState) (raw : String) :
    SessionState × List Effect :=
  match parse raw with
  | none => (st, [])
  | some msg => handleParsed parse st msg

/-- page.tsx 441-474.  With a transition in flight the call is rejected
outright.  Otherwise from the last step the session finishes: the stream is
closed, the camera stopped and `done` set, with no index change and no audio
teardown.  Otherwise the advance begins: completion state is reset, the
backend is told the new step, `currentStep` moves now and the 400ms commit of
`displayStep` is scheduled, its closure capturing the new label. -/
def handleNext (st : SessionState) : SessionState × List Effect :=
  if st.animating then (st, [])
  else
    let st1 := { st with showCompletionOverlay := false }
    let nextIdx := st1.currentStep + 1
    if st1.steps.length ≤ nextIdx then
      ({ st1 with esOpen := false, cameraActive := false, done := true },
       [Effect.cameraStop])
    else
      ({ st1 with animating := true, stepCompleted := false, stepCheckData := none,
                  currentStep := nextIdx,
                  pendingCommit := some (nextIdx, st1.steps.getD nextIdx "") },
       [Effect.fetchSetStep (st1.steps.getD nextIdx "")])

/-- The 400ms timeout scheduled by handleNext fires (page.tsx 467-473):
commit `displayStep`, drop the animation guard, and kick off the
announcement and the background caution/image loads for the captured label.
The source never cancels this timer, so it can fire after a teardown. -/
def commitStep (st : SessionState) : SessionState × List Effect :=
  match st.pendingCommit with
  | none => (st, [])
  | some (n, lbl) =>
    ({ st with displayStep := n, animating := false, pendingCommit := none,
               pendingAnnounce := some lbl },
     [Effect.loadCaution lbl, Effect.loadImage lbl st.recipeName])

/-- The detail fetch inside announceStep settles (page.tsx 220-240): a
returned detail is cached and concatenated after the label, then the
composed text is spoken as a step announcement. -/
def announceResolve (st : SessionState) (detail : Option String) :
    SessionState × List Effect :=
  match st.pendingAnnounce with
  | none => (st, [])
  | some step =>
    let st1 := { st with pendingAnnounce := none }
    let st2 :=
      match detail with
      | some d => { st1 with stepDetails := (step, d) :: st1.stepDetails }
      | none => st1
    let text := match detail with | some d => step ++ ". " ++ d | none => step
    speak st2 text true

/-- page.tsx 425-437: close the stream, stop and release audio, stop the
camera, reset the listed session fields and return to the prompt.  Neither
the animation flag, the pending commit timer, the step-speaking flag nor the
in-flight TTS request is touched by the source. -/
def handleEndRecipe (st : SessionState) : SessionState × List Effect :=
  ({ st with esOpen := false, audioHandle := false,
             cameraActive := false, showCompletionOverlay := false,
             promptText := "", recipeUrl := "", urlParsed := false,
             currentStep := 0, displayStep := 0, done := false,
             steps := [], stepDetails := [], stepImages := [],
             recipeName := "", remySpeech := "",
             stepCompleted := false, stepCheckData := none,
             detectedAllergens := [], selectedAllergens := [],
             phase := Phase.prompt },
   [Effect.cameraStop])

/-- The done-screen restart button (page.tsx 727-736): close the stream and
reset the session fields.  The source does not touch `audioRef` and issues
no camera-stop request here. -/
def doneRestart (st : SessionState) : SessionState × List Effect :=
  ({ st with esOpen := false,
             promptText := "", recipeUrl := "", urlParsed := false,
             currentStep := 0, displayStep := 0, done := false,
             steps := [], stepDetails := [], stepImages := [],
             recipeName := "", remySpeech := "",
             stepCompleted := false, stepCheckData := none,
             detectedAllergens := [], selectedAllergens := [],
             cameraActive := false, phase := Phase.prompt },
   [])

/-- The unmount cleanup (page.tsx 92-100): close the stream, pause playback
and release the audio handle. -/
def unmountCleanup (st : SessionState) : SessionState :=
  { st with esOpen := false, audioHandle := false }

/-- page.tsx 303-333: start the camera and vision pipeline, tell the backend
the first step, open the stream, reset the per-step state and enter
coaching, then start the background loads for the first step. -/
def startCooking (st : SessionState) (stepsToUse : List String) :
    SessionState × List Effect :=
  let st1 := connectSSE st
  let st2 := { st1 with currentStep := 0, displayStep := 0,
                        stepCompleted := false, stepCheckData := none,
                        remySpeech := "", cameraActive := true,
                        phase := Phase.coaching }
  (st2, [Effect.cameraStart st.recipeName stepsToUse,
         Effect.fetchSetStep (stepsToUse.headD ""),
         Effect.loadDetails (stepsToUse.headD ""),
         Effect.loadCaution (stepsToUse.headD ""),
         Effect.loadImage (stepsToUse.headD "") st.recipeName])

/-- Outcome of the recipe-generation fetch: a network-level rejection, or a
response with its ok flag and (when the body was readable JSON) the `steps`
array it carried; `none` steps model a body on which `.json()` throws. -/
inductive GenOutcome where
  | reject
  | resolve (ok : Bool) (steps : Option (List String))

/-- Outcome of the allergen-scan fetch, with the parsed body kept as JSON. -/
inductive AllergenOutcome where
  | reject
  | resolve (ok : Bool) (body : Option Json)

/-- Outcome of the generate-safe fetch in the allergen flow. -/
inductive SafeOutcome where
  | reject
  | resolve (ok : Bool) (steps : Option (List String))

/-- The suffix handleStart appends to every surfaced error (page.tsx 390). -/
def startFailMsg (m : String) : String :=
  m ++ " — is the backend running on port 8000?"

/-- page.tsx 337-393, run to completion with the outcomes of the two
concurrent fetches as parameters.  `Promise.all` rejects as soon as either
fetch rejects, so a rejection of the allergen call reaches the catch block
even when generation succeeded.  Only an allergen response with a non-ok
status is replaced by `\x7b allergens: null \x7d`; an ok response whose body
fails to parse throws inside the try and is fatal as well.  (The rotating
loading-message ticker is purely cosmetic and is not modelled; the error
strings stand in for the host-generated exception messages.) -/
def handleStart (st : SessionState) (gen : GenOutcome) (al : AllergenOutcome) :
    SessionState × List Effect :=
  if !canStart st then (st, [])
  else
    let st0 := { st with apiError := none, phase := Phase.loading }
    let food :=
      match st0.inputMode with
      | InputMode.describe => jsTrim st0.promptText
      | InputMode.url => jsTrim st0.recipeUrl
    let st0 := { st0 with recipeName := food }
    let fx0 := [Effect.fetchGenerate food, Effect.fetchAllergens food]
    match gen with
    | GenOutcome.reject =>
      ({ st0 with apiError := some (startFailMsg "Failed to fetch"),
                  phase := Phase.prompt }, fx0)
    | GenOutcome.resolve genOk genSteps =>
      match al with
      | AllergenOutcome.reject =>
        ({ st0 with apiError := some (startFailMsg "Failed to fetch"),
                    phase := Phase.prompt }, fx0)
      | AllergenOutcome.resolve alOk alBody =>
        if !genOk then
          ({ st0 with apiError := some (startFailMsg "Recipe generation failed"),
                      phase := Phase.prompt }, fx0)
        else
          match genSteps with
          | none =>
            ({ st0 with apiError := some (startFailMsg "Unexpected end of JSON input"),
                        phase := Phase.prompt }, fx0)
          | some newSteps =>
            let st1 := { st0 with steps := newSteps }
            let allergenData : Option Json :=
              match alOk with
              | true => alBody
              | false => some (Json.obj [("allergens", Json.null)])
            match allergenData with
            | none =>
              ({ st1 with apiError := some (startFailMsg "Unexpected end of JSON input"),
                          phase := Phase.prompt }, fx0)
            | some aj =>
              let alVal := aj.get? "allergens"
              if jsTruthyOpt alVal && jsLengthPositive alVal then
                ({ st1 with detectedAllergens := jsStringList alVal,
                            selectedAllergens := [], phase := Phase.allergens }, fx0)
              else
                let cooked := startCooking st1 newSteps
                ({ cooked.1 with pendingAnnounce := some (newSteps.headD "") },
                 fx0 ++ cooked.2 ++ [Effect.loadImage (newSteps.headD "") food])

/-- page.tsx 397-421: with no allergen selected go straight to cooking with
the current steps; otherwise ask for adapted steps and fall back to the
original list on any failure of that call (non-ok status, unreadable body,
or rejection). -/
def handleAllergenContinue (st : SessionState) (out : SafeOutcome) :
    SessionState × List Effect :=
  if st.selectedAllergens.isEmpty then startCooking st st.steps
  else
    let st0 := { st with phase := Phase.loading }
    let food :=
      match st0.inputMode with
      | InputMode.describe => jsTrim st0.promptText
      | InputMode.url => jsTrim st0.recipeUrl
    let fx0 := [Effect.fetchGenerateSafe food st0.selectedAllergens]
    match out with
    | SafeOutcome.resolve true (some newSteps) =>
      let st1 := { st0 with steps := newSteps }
      let cooked := startCooking st1 newSteps
      (cooked.1, fx0 ++ cooked.2)
    | _ =>
      let cooked := startCooking st0 st0.steps
      (cooked.1, fx0 ++ cooked.2)

/-- Toggling one allergen card (page.tsx 647-649). -/
def toggleAllergen (st : SessionState) (a : String) : SessionState :=
  if st.selectedAllergens.contains a then
    { st with selectedAllergens := st.selectedAllergens.filter (fun x => x != a) }
  else { st with selectedAllergens := st.selectedAllergens ++ [a] }

/-- The events that can fire on the single-threaded UI event loop: user
clicks and edits, inbound stream frames, and the completions of the timers
and fetches the handlers started.  The auto-advance timeout (page.tsx
113-122) invokes the same `handleNext` through `handleNextRef`, so `next`
covers both the manual click and the auto-advance. -/
inductive Act where
  | frame (raw : String)
  | next
  | commit
  | endRecipe
  | doneRestart
  | start (gen : GenOutcome) (al : AllergenOutcome)
  | allergenContinue (out : SafeOutcome)
  | toggle (a : String)
  | promptChange (s : String)
  | urlChange (s : String)
  | switchTo (m : InputMode)
  | urlTimerFire
  | ttsSettle (success : Bool)
  | announceSettle (detail : Option String)
  | audioDone

/-- One event-loop step.  Guards reflect what the UI makes reachable: the
coaching screen (and its buttons) renders only in the coaching phase before
`done`, the done screen only after, the prompt inputs only on the prompt
screen; stream frames arrive only while a connection is open; timer and
fetch completions fire only when pending (the pending-check is inside the
respective function). -/
def applyAction (P : Host) (st : SessionState) (a : Act) :
    SessionState × List Effect :=
  match a with
  | Act.frame raw =>
    if st.esOpen then handleMessage P.parseJson st raw else (st, [])
  | Act.next =>
    if st.phase = Phase.coaching ∧ st.done = false then handleNext st else (st, [])
  | Act.commit => commitStep st
  | Act.endRecipe =>
    if st.phase = Phase.coaching ∧ st.done = false then handleEndRecipe st else (st, [])
  | Act.doneRestart =>
    if st.phase = Phase.coaching ∧ st.done = true then doneRestart st else (st, [])
  | Act.start gen al =>
    if st.phase = Phase.prompt then handleStart st gen al else (st, [])
  | Act.allergenContinue out =>
    if st.phase = Phase.allergens then handleAllergenContinue st out else (st, [])
  | Act.toggle a =>
    if st.phase = Phase.allergens ∧ a ∈ st.detectedAllergens then
      (toggleAllergen st a, [])
    else (st, [])
  | Act.promptChange s =>
    if st.phase = Phase.prompt ∧ st.inputMode = InputMode.describe then
      ({ st with promptText := s }, [])
    else (st, [])
  | Act.urlChange s =>
    if st.phase = Phase.prompt ∧ st.inputMode = InputMode.url then
      (handleUrlChange P.urlProtocol st s, [])
    else (st, [])
  | Act.switchTo m =>
    if st.phase = Phase.prompt then (switchMode st m, []) else (st, [])
  | Act.urlTimerFire => (fireUrlTimer st, [])
  | Act.ttsSettle success => (ttsResolve st success, [])
  | Act.announceSettle detail => announceResolve st detail
  | Act.audioDone => (audioEnded st, [])

/-- The session states the controller can actually be in. -/
inductive Reachable (P : Host) : SessionState → Prop where
  | init : Reachable P initState
  | step (st : SessionState) (a : Act) (h : Reachable P st) :
      Reachable P (applyAction P st a).1

/-- Run a list of actions, keeping only the state. -/
def runActs (P : Host) (st : SessionState) : List Act → SessionState
  | [] => st
  | a :: rest => runActs P (applyAction P st a).1 rest

theorem reachable_runActs (P : Host) (st : SessionState) (h : Reachable P st) :
    ∀ acts : List Act, Reachable P (runActs P st acts)
  | [] => h
  | a :: rest => reachable_runActs P _ (Reachable.step st a h) rest

/-- Reachability restricted to traces in which "End Recipe" is never pressed
while a step transition is in flight (its un-cancelled 400ms commit timer
still pending). -/
inductive ReachableNoAbort (P : Host) : SessionState → Prop where
  | init : ReachableNoAbort P initState
  | step (st : SessionState) (a : Act) (h : ReachableNoAbort P st)
      (hok : a = Act.endRecipe → st.pendingCommit = none) :
      ReachableNoAbort P (applyAction P st a).1

/-- A concrete instance of the browser's JSON.parse, defined on the one
frame text exercised below exactly as JSON.parse maps it. -/
def demoParse : String → Option Json := fun s =>
  if s = "\x7b\"type\":\"step_check\",\"step\":\"Add pasta\",\"data\":\x7b\"completed\":true\x7d\x7d" then
    some (Json.obj [("type", Json.str "step_check"), ("step", Json.str "Add pasta"),
                    ("data", Json.obj [("completed", Json.bool true)])])
  else if s = "\x7b\"type\":\"speech\",\"data\":\"nice knife work\"\x7d" then
    some (Json.obj [("type", Json.str "speech"), ("data", Json.str "nice knife work")])
  else none

/-- A concrete instance of new URL's protocol: "http://example.com/recipe"
parses with protocol "http:", while "pasta recipe" makes the constructor
throw. -/
def demoUrlProtocol : String → Option String := fun s =>
  if s = "http://example.com/recipe" then some "http:" else none

def demoHost : Host := Host.mk demoParse demoUrlProtocol

/-- Generation succeeding with a two-step recipe. -/
def genTwoSteps : GenOutcome :=
  GenOutcome.resolve true (some ["Boil water", "Add pasta"])

/-- Generation succeeding with a one-step recipe. -/
def genOneStep : GenOutcome :=
  GenOutcome.resolve true (some ["Boil water"])

/-- An allergen scan answered with a non-ok status (degraded to no allergens). -/
def alDegraded : AllergenOutcome := AllergenOutcome.resolve false none

/-- Enter a prompt, start cooking the two-step recipe, begin advancing, and
let the matching step-check frame for the new current step arrive inside the
400ms transition window. -/
def c2Trace : List Act :=
  [Act.promptChange "pasta", Act.start genTwoSteps alDegraded, Act.next,
   Act.frame "\x7b\"type\":\"step_check\",\"step\":\"Add pasta\",\"data\":\x7b\"completed\":true\x7d\x7d"]

def c2State : SessionState := runActs demoHost initState c2Trace

/-- Enter a prompt and start the two-step recipe, begin advancing, end the
recipe inside the 400ms transition window, and let the un-cancelled commit
timer fire on the already-reset session. -/
def c6Trace : List Act :=
  [Act.promptChange "pasta", Act.start genTwoSteps alDegraded, Act.next,
   Act.endRecipe, Act.commit]

def c6State : SessionState := runActs demoHost initState c6Trace

/-- Start the one-step recipe and let its announcement reach playback, so
that the audio handle is live when the final advance finishes the session. -/
def c7Trace : List Act :=
  [Act.promptChange "pasta", Act.start genOneStep alDegraded,
   Act.announceSettle none, Act.ttsSettle true]

def c7State : SessionState := runActs demoHost initState c7Trace

/-- The prompt screen with a non-empty dish description. -/
def c8State : SessionState := { initState with promptText := "pasta" }

/-- In URL mode: type a valid URL, overwrite it with plain text before its
1200ms validation timer fires, then let the stale timer fire. -/
def c10Trace : List Act :=
  [Act.switchTo InputMode.url, Act.urlChange "http://example.com/recipe",
   Act.urlChange "pasta recipe", Act.urlTimerFire]

def c10State : SessionState := runActs demoHost initState c10Trace

/-- Dispatch: a frame whose envelope carries `type = "step_check"` enters the
step-check branch. -/
theorem handleParsed_stepCheck (parse : String → Option Json) (st : SessionState)
    (msg : Json) (hty : msg.get? "type" = some (Json.str "step_check")) :
    handleParsed parse st msg
      = handleStepCheck parse st (msg.get? "step") (msg.get? "data") := by
  cases msg <;> simp [Json.get?] at hty
  case obj fields =>
    simp [handleParsed, Json.get?, hty, jsStrictEqStringOpt, jsStrictEqString]

/-- Dispatch: a frame whose envelope carries `type = "speech"` enters the
speech branch. -/
theorem handleParsed_speech (parse : String → Option Json) (st : SessionState)
    (msg : Json) (hty : msg.get? "type" = some (Json.str "speech")) :
    handleParsed parse st msg = handleSpeech parse st (msg.get? "data") := by
  cases msg <;> simp [Json.get?] at hty
  case obj fields =>
    simp [handleParsed, Json.get?, hty, jsStrictEqStringOpt, jsStrictEqString]

/-- The staleness guard fires whenever the step field is absent or is not
the string strictly equal to the current step label. -/
theorem staleStepCheck_of_mismatch (st : SessionState) (stepVal : Option Json)
    (h : stepVal = none ∨ stepVal ≠ some (Json.str (currentStepLabel st))) :
    staleStepCheck st stepVal = true := by
  cases stepVal with
  | none => rfl
  | some sv =>
    rcases h with h | h
    · exact absurd h (by simp)
    · have hne : sv ≠ Json.str (currentStepLabel st) := by
        intro he; exact h (by rw [he])
      cases sv <;> simp [staleStepCheck, jsStrictEqString, jsTruthy]
      case str t =>
        exact Or.inr (fun he => hne (by rw [he]))

/-- C1: for every inbound step_check frame, if the frame's step field is
absent, or is not exactly equal to the label of the step at currentStepIndex
(read through the always-current label reference `currentStepLabel`), the
frame is discarded: the session state — in particular `stepCheckData` and
`stepCompleted` — is left unchanged and no effect is issued. -/
theorem stepCheck_staleness_discard (parse : String → Option Json)
    (st : SessionState) (raw : String) (msg : Json)
    (hp : parse raw = some msg)
    (hty : msg.get? "type" = some (Json.str "step_check"))
    (hstep : msg.get? "step" = none
      ∨ msg.get? "step" ≠ some (Json.str (currentStepLabel st))) :
    handleMessage parse st raw = (st, []) := by
  have h1 : handleMessage parse st raw = handleParsed parse st msg := by
    simp [handleMessage, hp]
  rw [h1, handleParsed_stepCheck parse st msg hty]
  unfold handleStepCheck
  simp [staleStepCheck_of_mismatch st _ hstep]

/-- Witness for C1: the demo step-check frame for step "Add pasta" arrives
while no recipe is active (current label ""), and is discarded whole. -/
theorem stepCheck_staleness_discard_w :
    handleMessage demoParse initState
      "\x7b\"type\":\"step_check\",\"step\":\"Add pasta\",\"data\":\x7b\"completed\":true\x7d\x7d"
      = (initState, []) :=
  stepCheck_staleness_discard demoParse initState _
    (Json.obj [("type", Json.str "step_check"), ("step", Json.str "Add pasta"),
               ("data", Json.obj [("completed", Json.bool true)])])
    rfl rfl (Or.inr (by simp [Json.get?, lookupField, currentStepLabel, initState]))

/-- C3: for every inbound speech frame, if the trimmed text starts with a
brace, a bracket or a code fence, or if it parses as JSON into an object
containing any of the keys completed/state/action, the frame is discarded
with no state change and no playback; otherwise the trimmed text is stored
as `remySpeech`. -/
theorem speech_json_filter (parse : String → Option Json)
    (st : SessionState) (raw : String) (msg : Json) (s0 : String)
    (hp : parse raw = some msg)
    (hty : msg.get? "type" = some (Json.str "speech"))
    (hdata : msg.get? "data" = some (Json.str s0)) :
    ((jsStartsWith (jsTrim s0) "\x7b" || jsStartsWith (jsTrim s0) "```"
        || jsStartsWith (jsTrim s0) "[") = true →
      handleMessage parse st raw = (st, []))
    ∧ (∀ kvs, parse (jsTrim s0) = some (Json.obj kvs) →
        (jsHasKey (Json.obj kvs) "completed" || jsHasKey (Json.obj kvs) "state"
          || jsHasKey (Json.obj kvs) "action") = true →
        handleMessage parse st raw = (st, []))
    ∧ ((jsStartsWith (jsTrim s0) "\x7b" || jsStartsWith (jsTrim s0) "```"
        || jsStartsWith (jsTrim s0) "[") = false →
      speechLooksLikeStepCheck parse (jsTrim s0) = false →
      (handleMessage parse st raw).1.remySpeech = jsTrim s0) := by
  have h1 : handleMessage parse st raw = handleSpeech parse st (some (Json.str s0)) := by
    have h0 : handleMessage parse st raw = handleParsed parse st msg := by
      simp [handleMessage, hp]
    rw [h0, handleParsed_speech parse st msg hty, hdata]
  refine ⟨?_, ?_, ?_⟩
  · intro hpre
    rw [h1]; unfold handleSpeech; simp [hpre]
  · intro kvs hparse hkeys
    rw [h1]; unfold handleSpeech
    by_cases hpre : (jsStartsWith (jsTrim s0) "\x7b" || jsStartsWith (jsTrim s0) "```"
        || jsStartsWith (jsTrim s0) "[") = true
    · simp [hpre]
    · rw [Bool.not_eq_true] at hpre
      have hlooks : speechLooksLikeStepCheck parse (jsTrim s0) = true := by
        unfold speechLooksLikeStepCheck
        rw [hparse]
        simp [jsTruthy, jsTypeofObject, hkeys]
      simp [hpre, hlooks]
  · intro hpre hlooks
    rw [h1]; unfold handleSpeech
    simp only [hpre, hlooks, Bool.false_eq_true, if_false]
    by_cases hss : st.stepSpeaking <;> simp [hss, speak]

/-- Witness for C3: the speech frame "nice knife work" passes both filters
and its text is stored as `remySpeech`. -/
theorem speech_json_filter_w :
    (handleMessage demoParse initState
      "\x7b\"type\":\"speech\",\"data\":\"nice knife work\"\x7d").1.remySpeech
      = jsTrim "nice knife work" :=
  (speech_json_filter demoParse initState
    "\x7b\"type\":\"speech\",\"data\":\"nice knife work\"\x7d"
    (Json.obj [("type", Json.str "speech"), ("data", Json.str "nice knife work")])
    "nice knife work" rfl rfl rfl).2.2 (by decide) (by decide)

/-- C4: when a speech frame passes the JSON filter while the step-speaking
flag is raised, `remySpeech` is still updated to the trimmed text but no
playback request is issued; when the flag is not raised, playback of that
text is started. -/
theorem speech_suppression (parse : String → Option Json)
    (st : SessionState) (raw : String) (msg : Json) (s0 : String)
    (hp : parse raw = some msg)
    (hty : msg.get? "type" = some (Json.str "speech"))
    (hdata : msg.get? "data" = some (Json.str s0))
    (hpre : (jsStartsWith (jsTrim s0) "\x7b" || jsStartsWith (jsTrim s0) "```"
        || jsStartsWith (jsTrim s0) "[") = false)
    (hjson : speechLooksLikeStepCheck parse (jsTrim s0) = false) :
    (handleMessage parse st raw).1.remySpeech = jsTrim s0
    ∧ (st.stepSpeaking = true → (handleMessage parse st raw).2 = [])
    ∧ (st.stepSpeaking = false →
        (handleMessage parse st raw).2 = [Effect.ttsRequest (jsTrim s0) false]) := by
  have h1 : handleMessage parse st raw = handleSpeech parse st (some (Json.str s0)) := by
    have h0 : handleMessage parse st raw = handleParsed parse st msg := by
      simp [handleMessage, hp]
    rw [h0, handleParsed_speech parse st msg hty, hdata]
  rw [h1]; unfold handleSpeech
  simp only [hpre, hjson, Bool.false_eq_true, if_false]
  refine ⟨?_, ?_, ?_⟩
  · by_cases hss : st.stepSpeaking <;> simp [hss, speak]
  · intro hss; simp [hss]
  · intro hss; simp [hss, speak]

/-- Witness for C4: the "nice knife work" frame updates `remySpeech` in both
flag states, is not played while the step announcement flag is up, and is
played when it is down. -/
theorem speech_suppression_w :
    (handleMessage demoParse { initState with stepSpeaking := true }
        "\x7b\"type\":\"speech\",\"data\":\"nice knife work\"\x7d").2 = []
    ∧ (handleMessage demoParse initState
        "\x7b\"type\":\"speech\",\"data\":\"nice knife work\"\x7d").2
        = [Effect.ttsRequest (jsTrim "nice knife work") false] :=
  ⟨(speech_suppression demoParse { initState with stepSpeaking := true }
      "\x7b\"type\":\"speech\",\"data\":\"nice knife work\"\x7d"
      (Json.obj [("type", Json.str "speech"), ("data", Json.str "nice knife work")])
      "nice knife work" rfl rfl rfl (by decide) (by decide)).2.1 rfl,
   (speech_suppression demoParse initState
      "\x7b\"type\":\"speech\",\"data\":\"nice knife work\"\x7d"
      (Json.obj [("type", Json.str "speech"), ("data", Json.str "nice knife work")])
      "nice knife work" rfl rfl rfl (by decide) (by decide)).2.2 rfl⟩

/-- C5: an advance request (manual next or auto-advance, both of which call
`handleNext` through the latest-handler reference) arriving while a step
transition is in flight is a no-op: no state change and no backend call. -/
theorem advance_single_flight (st : SessionState) (h : st.animating = true) :
    handleNext st = (st, []) := by
  unfold handleNext; simp [h]

/-- Witness for C5: with the animation guard up, `handleNext` returns the
state untouched and issues nothing. -/
theorem advance_single_flight_w :
    handleNext { initState with animating := true }
      = ({ initState with animating := true }, []) :=
  advance_single_flight { initState with animating := true } rfl

/-- C9: every discarded frame is discarded totally and state-preservingly:
an unparseable envelope, a step_check whose string payload fails to parse
after fence-stripping, and a speech frame whose data is not a string (whose
`.trim()` throws into the surrounding catch) all leave the handler with the
original state and no effect. -/
theorem malformed_frame_discard (parse : String → Option Json)
    (st : SessionState) (raw : String)
    (h : parse raw = none
      ∨ (∃ msg s, parse raw = some msg
          ∧ msg.get? "type" = some (Json.str "step_check")
          ∧ msg.get? "data" = some (Json.str s)
          ∧ parse (stripFenceString s) = none)
      ∨ (∃ msg, parse raw = some msg
          ∧ msg.get? "type" = some (Json.str "speech")
          ∧ ∀ t, msg.get? "data" ≠ some (Json.str t))) :
    handleMessage parse st raw = (st, []) := by
  rcases h with h | ⟨msg, s, hp, hty, hdata, hstrip⟩ | ⟨msg, hp, hty, hdata⟩
  · simp [handleMessage, h]
  · have h1 : handleMessage parse st raw
        = handleStepCheck parse st (msg.get? "step") (msg.get? "data") := by
      have h0 : handleMessage parse st raw = handleParsed parse st msg := by
        simp [handleMessage, hp]
      rw [h0, handleParsed_stepCheck parse st msg hty]
    rw [h1, hdata]
    unfold handleStepCheck
    by_cases hstale : staleStepCheck st (msg.get? "step") = true
    · simp [hstale]
    · rw [Bool.not_eq_true] at hstale
      simp [hstale, hstrip, jsTruthy]
  · have h1 : handleMessage parse st raw = handleSpeech parse st (msg.get? "data") := by
      have h0 : handleMessage parse st raw = handleParsed parse st msg := by
        simp [handleMessage, hp]
      rw [h0, handleParsed_speech parse st msg hty]
    rw [h1]
    cases hd : msg.get? "data" with
    | none => rfl
    | some j =>
      cases j with
      | str t => exact absurd hd (hdata t)
      | null => rfl
      | bool b => rfl
      | num n => rfl
      | arr xs => rfl
      | obj kvs => rfl

/-- Witness for C9: an envelope JSON.parse cannot read is dropped with the
state intact. -/
theorem malformed_frame_discard_w :
    handleMessage demoParse initState "oops not json" = (initState, []) :=
  malformed_frame_discard demoParse initState "oops not json" (Or.inl rfl)

/-- Fields of the session a step-check frame can never touch, plus the
monotonicity of `stepCompleted` under it. -/
theorem handleStepCheck_core (parse : String → Option Json) (st : SessionState)
    (stepVal dataVal : Option Json) :
    ((handleStepCheck parse st stepVal dataVal).1.currentStep = st.currentStep
    ∧ (handleStepCheck parse st stepVal dataVal).1.displayStep = st.displayStep
    ∧ (handleStepCheck parse st stepVal dataVal).1.steps = st.steps
    ∧ (handleStepCheck parse st stepVal dataVal).1.pendingCommit = st.pendingCommit
    ∧ (handleStepCheck parse st stepVal dataVal).1.phase = st.phase
    ∧ (handleStepCheck parse st stepVal dataVal).1.done = st.done
    ∧ (handleStepCheck parse st stepVal dataVal).1.animating = st.animating
    ∧ (handleStepCheck parse st stepVal dataVal).1.esOpen = st.esOpen
    ∧ (handleStepCheck parse st stepVal dataVal).1.audioHandle = st.audioHandle
    ∧ (handleStepCheck parse st stepVal dataVal).1.remySpeech = st.remySpeech)
    ∧ (st.stepCompleted = true →
        (handleStepCheck parse st stepVal dataVal).1.stepCompleted = true) := by
  unfold handleStepCheck setStepCompletedTrue
  split
  · simp
  · dsimp only
    split
    · split
      · split <;> simp
      · simp
    · simp

/-- Fields of the session a speech frame can never touch, plus the
monotonicity of `stepCompleted` under it. -/
theorem handleSpeech_core (parse : String → Option Json) (st : SessionState)
    (dataVal : Option Json) :
    ((handleSpeech parse st dataVal).1.currentStep = st.currentStep
    ∧ (handleSpeech parse st dataVal).1.displayStep = st.displayStep
    ∧ (handleSpeech parse st dataVal).1.steps = st.steps
    ∧ (handleSpeech parse st dataVal).1.pendingCommit = st.pendingCommit
    ∧ (handleSpeech parse st dataVal).1.phase = st.phase
    ∧ (handleSpeech parse st dataVal).1.done = st.done
    ∧ (handleSpeech parse st dataVal).1.animating = st.animating
    ∧ (handleSpeech parse st dataVal).1.esOpen = st.esOpen)
    ∧ (st.stepCompleted = true →
        (handleSpeech parse st dataVal).1.stepCompleted = true) := by
  unfold handleSpeech speak
  split
  · dsimp only
    split
    · simp
    · split
      · simp
      · split <;> simp
  · simp

/-- Fields of the session no inbound frame can touch, plus the monotonicity
of `stepCompleted` under frame delivery. -/
theorem handleMessage_core (parse : String → Option Json) (st : SessionState)
    (raw : String) :
    ((handleMessage parse st raw).1.currentStep = st.currentStep
    ∧ (handleMessage parse st raw).1.displayStep = st.displayStep
    ∧ (handleMessage parse st raw).1.steps = st.steps
    ∧ (handleMessage parse st raw).1.pendingCommit = st.pendingCommit
    ∧ (handleMessage parse st raw).1.phase = st.phase
    ∧ (handleMessage parse st raw).1.done = st.done
    ∧ (handleMessage parse st raw).1.animating = st.animating
    ∧ (handleMessage parse st raw).1.esOpen = st.esOpen)
    ∧ (st.stepCompleted = true →
        (handleMessage parse st raw).1.stepCompleted = true) := by
  unfold handleMessage
  split
  · simp
  · unfold handleParsed
    split
    · simp
    · split
      · refine ⟨⟨?_, ?_, ?_, ?_, ?_, ?_, ?_, ?_⟩, ?_⟩
        · exact (handleStepCheck_core parse st _ _).1.1
        · exact (handleStepCheck_core parse st _ _).1.2.1
        · exact (handleStepCheck_core parse st _ _).1.2.2.1
        · exact (handleStepCheck_core parse st _ _).1.2.2.2.1
        · exact (handleStepCheck_core parse st _ _).1.2.2.2.2.1
        · exact (handleStepCheck_core parse st _ _).1.2.2.2.2.2.1
        · exact (handleStepCheck_core parse st _ _).1.2.2.2.2.2.2.1
        · exact (handleStepCheck_core parse st _ _).1.2.2.2.2.2.2.2.1
        · exact (handleStepCheck_core parse st _ _).2
      · split
        · exact handleSpeech_core parse st _
        · simp

/-- C2 counterexample: it is not true that `stepCompleted` is false whenever
`displayStepIndex` changes.  In the reachable state `c2State` — two-step
recipe, advance begun, and the matching step-check frame for the new current
step delivered inside the 400ms transition window — the pending commit
changes `displayStep` from 0 to 1 while `stepCompleted` is still true. -/
theorem stepCompleted_reset_claim_cex :
    ¬ (∀ (P : Host) (st : SessionState) (a : Act), Reachable P st →
        (applyAction P st a).1.displayStep ≠ st.displayStep →
        (applyAction P st a).1.stepCompleted = false) := by
  intro hclaim
  have h := hclaim demoHost c2State Act.commit
    (reachable_runActs demoHost initState Reachable.init c2Trace) (by decide)
  exact absurd h (by decide)

/-- C2 amended: no inbound push frame ever resets `stepCompleted` to false
(it is monotone under frame delivery), and beginning a step advance resets
it to false; but a step-check frame for the new current step arriving during
the transition window can make it true again before `displayStepIndex`
commits. -/
theorem stepCompleted_monotone_reset (parse : String → Option Json)
    (st : SessionState) (raw : String) :
    (st.stepCompleted = true → (handleMessage parse st raw).1.stepCompleted = true)
    ∧ (st.animating = false → st.currentStep + 1 < st.steps.length →
        (handleNext st).1.stepCompleted = false) := by
  constructor
  · exact (handleMessage_core parse st raw).2
  · intro ha hlt
    have hcond : ¬(st.steps.length ≤ st.currentStep + 1) := by omega
    unfold handleNext
    simp [ha, hcond]

/-- Witness for the amended C2: a completed flag survives an arbitrary frame,
and beginning an advance on a fresh two-step session clears it. -/
theorem stepCompleted_monotone_reset_w :
    (handleMessage demoParse { initState with stepCompleted := true }
        "anything").1.stepCompleted = true
    ∧ (handleNext { initState with
        steps := ["Boil water", "Add pasta"] }).1.stepCompleted = false :=
  ⟨(stepCompleted_monotone_reset demoParse
      { initState with stepCompleted := true } "anything").1 rfl,
   (stepCompleted_monotone_reset demoParse
      { initState with steps := ["Boil water", "Add pasta"] } "anything").2
      rfl (by decide)⟩

/-- C7 counterexample: completing the final step does not release the audio
handle.  In the reachable state `c7State` the step announcement is playing
(`audioHandle = true`); finishing the recipe from there closes the stream
but leaves the audio handle set. -/
theorem teardown_release_cex :
    ¬ (∀ (P : Host) (st : SessionState), Reachable P st →
        st.phase = Phase.coaching → st.done = false → st.animating = false →
        st.steps.length ≤ st.currentStep + 1 →
        (handleNext st).1.esOpen = false ∧ (handleNext st).1.audioHandle = false) := by
  intro hclaim
  have h := hclaim demoHost c7State
    (reachable_runActs demoHost initState Reachable.init c7Trace)
    (by decide) (by decide) (by decide) (by decide)
  exact absurd h.2 (by decide)

/-- C7 amended: end-recipe and unmount close the push connection and release
the audio handle; the final-step completion path (and the done-screen
restart) closes the connection but leaves the audio handle exactly as it
was, releasing it only through a later unmount or end-recipe. -/
theorem teardown_release (st : SessionState) :
    ((handleEndRecipe st).1.esOpen = false
      ∧ (handleEndRecipe st).1.audioHandle = false)
    ∧ ((unmountCleanup st).esOpen = false
      ∧ (unmountCleanup st).audioHandle = false)
    ∧ (st.animating = false → st.steps.length ≤ st.currentStep + 1 →
        (handleNext st).1.esOpen = false
        ∧ (handleNext st).1.audioHandle = st.audioHandle
        ∧ (handleNext st).1.done = true)
    ∧ ((doneRestart st).1.esOpen = false
      ∧ (doneRestart st).1.audioHandle = st.audioHandle) := by
  refine ⟨⟨rfl, rfl⟩, ⟨rfl, rfl⟩, ?_, rfl, rfl⟩
  intro ha hlen
  unfold handleNext
  simp [ha, hlen]

/-- Witness for the amended C7: finishing the one-step session from
`c7State` closes the stream, sets `done`, and leaves the audio handle as it
was (still held). -/
theorem teardown_release_w :
    (handleNext c7State).1.esOpen = false
    ∧ (handleNext c7State).1.audioHandle = c7State.audioHandle
    ∧ (handleNext c7State).1.done = true :=
  (teardown_release c7State).2.2.1 (by decide) (by decide)

/-- C8 counterexample: not every failure of the allergen scan is degraded to
"no allergens found".  With a startable prompt and a successful generation,
a network-level rejection of the allergen fetch makes `Promise.all` reject:
the controller aborts to the prompt phase and surfaces an error instead of
proceeding to coaching. -/
theorem allergen_failure_cex :
    ¬ (∀ (st : SessionState) (newSteps : List String) (al : AllergenOutcome),
        canStart st = true →
        (al = AllergenOutcome.reject
          ∨ (∃ b, al = AllergenOutcome.resolve false b)
          ∨ al = AllergenOutcome.resolve true none) →
        (handleStart st (GenOutcome.resolve true (some newSteps)) al).1.phase
            = Phase.coaching
          ∧ (handleStart st (GenOutcome.resolve true (some newSteps)) al).1.apiError
            = none) := by
  intro hclaim
  have h := hclaim c8State ["Boil water", "Add pasta"] AllergenOutcome.reject
    (by decide) (Or.inl rfl)
  exact absurd h.1 (by decide)

/-- C8 amended: only an allergen response with a non-success HTTP status is
treated as "no allergens found" (coaching proceeds with the generated steps
and no error); a network-level rejection of the allergen fetch is fatal to
the start — the controller returns to the prompt phase with an error. -/
theorem allergen_failure_degraded (st : SessionState) (newSteps : List String)
    (alBody : Option Json) (hcan : canStart st = true) :
    ((handleStart st (GenOutcome.resolve true (some newSteps))
        (AllergenOutcome.resolve false alBody)).1.phase = Phase.coaching
      ∧ (handleStart st (GenOutcome.resolve true (some newSteps))
          (AllergenOutcome.resolve false alBody)).1.steps = newSteps
      ∧ (handleStart st (GenOutcome.resolve true (some newSteps))
          (AllergenOutcome.resolve false alBody)).1.apiError = none)
    ∧ ((handleStart st (GenOutcome.resolve true (some newSteps))
        AllergenOutcome.reject).1.phase = Phase.prompt
      ∧ (handleStart st (GenOutcome.resolve true (some newSteps))
          AllergenOutcome.reject).1.apiError ≠ none) := by
  unfold handleStart startCooking connectSSE
  simp [hcan, Json.get?, lookupField, jsTruthyOpt, jsTruthy, jsLengthPositive]

/-- Witness for the amended C8: with the dish "pasta" entered, a non-ok
allergen response still lands in coaching with the generated steps, and a
rejected allergen fetch lands back on the prompt with an error. -/
theorem allergen_failure_degraded_w :
    ((handleStart c8State (GenOutcome.resolve true (some ["Boil water", "Add pasta"]))
        (AllergenOutcome.resolve false none)).1.phase = Phase.coaching
      ∧ (handleStart c8State (GenOutcome.resolve true (some ["Boil water", "Add pasta"]))
          (AllergenOutcome.resolve false none)).1.steps = ["Boil water", "Add pasta"]
      ∧ (handleStart c8State (GenOutcome.resolve true (some ["Boil water", "Add pasta"]))
          (AllergenOutcome.resolve false none)).1.apiError = none)
    ∧ ((handleStart c8State (GenOutcome.resolve true (some ["Boil water", "Add pasta"]))
        AllergenOutcome.reject).1.phase = Phase.prompt
      ∧ (handleStart c8State (GenOutcome.resolve true (some ["Boil water", "Add pasta"]))
          AllergenOutcome.reject).1.apiError ≠ none) :=
  allergen_failure_degraded c8State ["Boil water", "Add pasta"] none (by decide)

/-- C10 counterexample: start can be enabled in URL mode for a string that
does not parse as an http(s) URL.  In the reachable state `c10State` a valid
URL was typed, overwritten with "pasta recipe" before its 1200ms validation
timer fired, and the never-cancelled timer then marked the field ready. -/
theorem url_gate_cex :
    ¬ (∀ (P : Host) (st : SessionState), Reachable P st →
        st.inputMode = InputMode.url → canStart st = true →
        isValidUrl P.urlProtocol (jsTrim st.recipeUrl) = true) := by
  intro hclaim
  have h := hclaim demoHost c10State
    (reachable_runActs demoHost initState Reachable.init c10Trace)
    (by decide) (by decide)
  exact absurd h (by decide)

/-- C10 amended: URL-mode gating is purely syntactic and timer-based — no
network request participates — and, provided no validation timer from an
earlier edit is still pending, it is exact: an edit disables start
immediately; a syntactically valid http(s) URL arms exactly one 1200ms
timer whose firing enables start; an invalid string arms none, so start
stays disabled.  (A pending timer from an earlier edit is never cancelled
and can enable start regardless of the current text.) -/
theorem url_gate_syntactic (u : String → Option String) (st : SessionState)
    (val : String) (hmode : st.inputMode = InputMode.url)
    (hpend : st.pendingUrlTimers = 0) :
    canStart (handleUrlChange u st val) = false
    ∧ (isValidUrl u (jsTrim val) = true →
        (handleUrlChange u st val).pendingUrlTimers = 1
        ∧ canStart (fireUrlTimer (handleUrlChange u st val)) = true)
    ∧ (isValidUrl u (jsTrim val) = false →
        (handleUrlChange u st val).pendingUrlTimers = 0) := by
  refine ⟨?_, ?_, ?_⟩
  · by_cases hv : isValidUrl u (jsTrim val) = true
    · simp [handleUrlChange, canStart, hv, hmode]
    · rw [Bool.not_eq_true] at hv
      simp [handleUrlChange, canStart, hv, hmode]
  · intro hv
    constructor
    · simp [handleUrlChange, hv, hpend]
    · simp [handleUrlChange, fireUrlTimer, canStart, hv, hpend, hmode]
  · intro hv
    simp [handleUrlChange, hv, hpend]

/-- Witness for the amended C10: in URL mode with no pending timer, typing a
valid URL disables start until the armed timer fires (then enables it), and
typing plain text arms no timer. -/
theorem url_gate_syntactic_w :
    canStart (handleUrlChange demoUrlProtocol
        { initState with inputMode := InputMode.url } "http://example.com/recipe") = false
    ∧ canStart (fireUrlTimer (handleUrlChange demoUrlProtocol
        { initState with inputMode := InputMode.url } "http://example.com/recipe")) = true
    ∧ (handleUrlChange demoUrlProtocol
        { initState with inputMode := InputMode.url } "pasta recipe").pendingUrlTimers = 0 :=
  ⟨(url_gate_syntactic demoUrlProtocol { initState with inputMode := InputMode.url }
      "http://example.com/recipe" rfl rfl).1,
   ((url_gate_syntactic demoUrlProtocol { initState with inputMode := InputMode.url }
      "http://example.com/recipe" rfl rfl).2.1 (by decide)).2,
   (url_gate_syntactic demoUrlProtocol { initState with inputMode := InputMode.url }
      "pasta recipe" rfl rfl).2.2 (by decide)⟩

/-- C6 counterexample: the index ordering is not preserved on every
reachable path.  In the trace behind `c6State` the user ends the recipe
during the 400ms transition window; end-recipe resets the indices and the
step list but does not cancel the commit timer, which then sets
`displayStep := 1` while `currentStep = 0` and `steps = []`. -/
theorem index_order_cex :
    ¬ (∀ (P : Host) (st : SessionState), Reachable P st →
        st.displayStep ≤ st.currentStep ∧ st.currentStep ≤ st.steps.length) := by
  intro hclaim
  have h := hclaim demoHost c6State
    (reachable_runActs demoHost initState Reachable.init c6Trace)
  exact absurd h.1 (by decide)

/-- The inductive strengthening of the index-ordering invariant: the
ordering itself, that a pending commit always targets the current step of a
live coaching session, that the animation guard tracks the pending commit,
and that the indices are parked at zero outside coaching. -/
def IndexInv (st : SessionState) : Prop :=
  st.displayStep ≤ st.currentStep
  ∧ st.currentStep ≤ st.steps.length
  ∧ (∀ n lbl, st.pendingCommit = some (n, lbl) →
      n = st.currentStep ∧ st.phase = Phase.coaching ∧ st.done = false)
  ∧ st.animating = st.pendingCommit.isSome
  ∧ (st.phase ≠ Phase.coaching → st.currentStep = 0 ∧ st.displayStep = 0)

theorem indexInv_init : IndexInv initState := by
  refine ⟨Nat.le_refl 0, Nat.le_refl 0, ?_, rfl, fun _ => ⟨rfl, rfl⟩⟩
  intro n lbl h
  exact Option.noConfusion h

/-- Transfer of `IndexInv` along an update that leaves every field it
mentions unchanged. -/
theorem IndexInv_of_fields (st st1 : SessionState)
    (e1 : st1.currentStep = st.currentStep) (e2 : st1.displayStep = st.displayStep)
    (e3 : st1.steps = st.steps) (e4 : st1.pendingCommit = st.pendingCommit)
    (e5 : st1.phase = st.phase) (e6 : st1.done = st.done)
    (e7 : st1.animating = st.animating)
    (h : IndexInv st) : IndexInv st1 := by
  obtain ⟨h1, h2, h3, h4, h5⟩ := h
  refine ⟨?_, ?_, ?_, ?_, ?_⟩
  · rw [e1, e2]; exact h1
  · rw [e1, e3]; exact h2
  · intro n lbl hp
    rw [e4] at hp
    rcases h3 n lbl hp with ⟨ha, hb, hc⟩
    exact ⟨by rw [e1]; exact ha, by rw [e5]; exact hb, by rw [e6]; exact hc⟩
  · rw [e7, e4]; exact h4
  · intro hph
    rw [e5] at hph
    rcases h5 hph with ⟨ha, hb⟩
    exact ⟨by rw [e1]; exact ha, by rw [e2]; exact hb⟩

theorem ttsResolve_fields (st : SessionState) (success : Bool) :
    (ttsResolve st success).currentStep = st.currentStep
    ∧ (ttsResolve st success).displayStep = st.displayStep
    ∧ (ttsResolve st success).steps = st.steps
    ∧ (ttsResolve st success).pendingCommit = st.pendingCommit
    ∧ (ttsResolve st success).phase = st.phase
    ∧ (ttsResolve st success).done = st.done
    ∧ (ttsResolve st success).animating = st.animating := by
  unfold ttsResolve
  split
  · exact ⟨rfl, rfl, rfl, rfl, rfl, rfl, rfl⟩
  · split <;> exact ⟨rfl, rfl, rfl, rfl, rfl, rfl, rfl⟩

theorem announceResolve_fields (st : SessionState) (detail : Option String) :
    (announceResolve st detail).1.currentStep = st.currentStep
    ∧ (announceResolve st detail).1.displayStep = st.displayStep
    ∧ (announceResolve st detail).1.steps = st.steps
    ∧ (announceResolve st detail).1.pendingCommit = st.pendingCommit
    ∧ (announceResolve st detail).1.phase = st.phase
    ∧ (announceResolve st detail).1.done = st.done
    ∧ (announceResolve st detail).1.animating = st.animating := by
  unfold announceResolve speak
  split
  · exact ⟨rfl, rfl, rfl, rfl, rfl, rfl, rfl⟩
  · split <;> exact ⟨rfl, rfl, rfl, rfl, rfl, rfl, rfl⟩

theorem handleUrlChange_fields (u : String → Option String) (st : SessionState)
    (val : String) :
    (handleUrlChange u st val).currentStep = st.currentStep
    ∧ (handleUrlChange u st val).displayStep = st.displayStep
    ∧ (handleUrlChange u st val).steps = st.steps
    ∧ (handleUrlChange u st val).pendingCommit = st.pendingCommit
    ∧ (handleUrlChange u st val).phase = st.phase
    ∧ (handleUrlChange u st val).done = st.done
    ∧ (handleUrlChange u st val).animating = st.animating := by
  unfold handleUrlChange
  split <;> exact ⟨rfl, rfl, rfl, rfl, rfl, rfl, rfl⟩

theorem fireUrlTimer_fields (st : SessionState) :
    (fireUrlTimer st).currentStep = st.currentStep
    ∧ (fireUrlTimer st).displayStep = st.displayStep
    ∧ (fireUrlTimer st).steps = st.steps
    ∧ (fireUrlTimer st).pendingCommit = st.pendingCommit
    ∧ (fireUrlTimer st).phase = st.phase
    ∧ (fireUrlTimer st).done = st.done
    ∧ (fireUrlTimer st).animating = st.animating := by
  unfold fireUrlTimer
  split <;> exact ⟨rfl, rfl, rfl, rfl, rfl, rfl, rfl⟩

theorem toggleAllergen_fields (st : SessionState) (a : String) :
    (toggleAllergen st a).currentStep = st.currentStep
    ∧ (toggleAllergen st a).displayStep = st.displayStep
    ∧ (toggleAllergen st a).steps = st.steps
    ∧ (toggleAllergen st a).pendingCommit = st.pendingCommit
    ∧ (toggleAllergen st a).phase = st.phase
    ∧ (toggleAllergen st a).done = st.done
    ∧ (toggleAllergen st a).animating = st.animating := by
  unfold toggleAllergen
  split <;> exact ⟨rfl, rfl, rfl, rfl, rfl, rfl, rfl⟩

/-- `startCooking` puts any session into a coaching state satisfying the
invariant, provided no commit timer is pending and the animation guard is
down. -/
theorem startCooking_inv (st : SessionState) (stepsToUse : List String)
    (hpc : st.pendingCommit = none) (ha : st.animating = false) :
    IndexInv (startCooking st stepsToUse).1 := by
  refine ⟨Nat.le_refl 0, Nat.zero_le _, ?_, ?_, ?_⟩
  · intro n lbl hp
    have hp2 : st.pendingCommit = some (n, lbl) := hp
    rw [hpc] at hp2
    exact Option.noConfusion hp2
  · show st.animating = st.pendingCommit.isSome
    rw [ha, hpc]; rfl
  · intro hph
    exact absurd rfl hph

/-- Starting from the prompt screen preserves the strengthened invariant,
whatever the two concurrent fetches return. -/
theorem handleStart_inv (st : SessionState) (gen : GenOutcome) (al : AllergenOutcome)
    (hInv : IndexInv st) (hph : st.phase = Phase.prompt) :
    IndexInv (handleStart st gen al).1 := by
  obtain ⟨h1, h2, h3, h4, h5⟩ := hInv
  have hnc : st.phase ≠ Phase.coaching := by
    rw [hph]; intro h; exact Phase.noConfusion h
  obtain ⟨hcur, hdisp⟩ := h5 hnc
  have hpc : st.pendingCommit = none := by
    cases hpc2 : st.pendingCommit with
    | none => rfl
    | some v =>
      obtain ⟨n, lbl⟩ := v
      rcases h3 n lbl hpc2 with ⟨-, hb, -⟩
      rw [hph] at hb
      exact Phase.noConfusion hb
  have ha : st.animating = false := by rw [h4, hpc]; rfl
  unfold handleStart
  by_cases hcs : canStart st = true
  · simp only [hcs, Bool.not_true, Bool.false_eq_true, if_false]
    cases gen with
    | reject =>
      exact ⟨h1, le_trans (Nat.le_of_eq hcur) (Nat.zero_le _),
        fun n lbl hp => Option.noConfusion (hpc ▸ (hp : st.pendingCommit = some (n, lbl))),
        h4, fun _ => ⟨hcur, hdisp⟩⟩
    | resolve genOk genSteps =>
      cases al with
      | reject =>
        exact ⟨h1, le_trans (Nat.le_of_eq hcur) (Nat.zero_le _),
          fun n lbl hp => Option.noConfusion (hpc ▸ (hp : st.pendingCommit = some (n, lbl))),
          h4, fun _ => ⟨hcur, hdisp⟩⟩
      | resolve alOk alBody =>
        cases genOk with
        | false =>
          exact ⟨h1, le_trans (Nat.le_of_eq hcur) (Nat.zero_le _),
            fun n lbl hp => Option.noConfusion (hpc ▸ (hp : st.pendingCommit = some (n, lbl))),
            h4, fun _ => ⟨hcur, hdisp⟩⟩
        | true =>
          cases genSteps with
          | none =>
            exact ⟨h1, le_trans (Nat.le_of_eq hcur) (Nat.zero_le _),
              fun n lbl hp => Option.noConfusion (hpc ▸ (hp : st.pendingCommit = some (n, lbl))),
              h4, fun _ => ⟨hcur, hdisp⟩⟩
          | some newSteps =>
            cases alOk with
            | true =>
              cases alBody with
              | none =>
                exact ⟨h1, le_trans (Nat.le_of_eq hcur) (Nat.zero_le _),
                  fun n lbl hp => Option.noConfusion (hpc ▸ (hp : st.pendingCommit = some (n, lbl))),
                  h4, fun _ => ⟨hcur, hdisp⟩⟩
              | some aj =>
                dsimp only
                by_cases hcond : (jsTruthyOpt (aj.get? "allergens")
                    && jsLengthPositive (aj.get? "allergens")) = true
                · rw [if_pos hcond]
                  exact ⟨h1, le_trans (Nat.le_of_eq hcur) (Nat.zero_le _),
                    fun n lbl hp => Option.noConfusion (hpc ▸ (hp : st.pendingCommit = some (n, lbl))),
                    h4, fun _ => ⟨hcur, hdisp⟩⟩
                · rw [if_neg hcond]
                  exact IndexInv_of_fields _ _ rfl rfl rfl rfl rfl rfl rfl
                    (startCooking_inv _ newSteps hpc ha)
            | false =>
              dsimp only
              rw [if_neg (by decide)]
              exact IndexInv_of_fields _ _ rfl rfl rfl rfl rfl rfl rfl
                (startCooking_inv _ newSteps hpc ha)
  · rw [Bool.not_eq_true] at hcs
    simp only [hcs, Bool.not_false, if_true]
    exact ⟨h1, h2, h3, h4, h5⟩

/-- Confirming the allergen screen preserves the strengthened invariant,
whatever the substitution fetch returns. -/
theorem handleAllergenContinue_inv (st : SessionState) (out : SafeOutcome)
    (hInv : IndexInv st) (hph : st.phase = Phase.allergens) :
    IndexInv (handleAllergenContinue st out).1 := by
  obtain ⟨h1, h2, h3, h4, h5⟩ := hInv
  have hpc : st.pendingCommit = none := by
    cases hpc2 : st.pendingCommit with
    | none => rfl
    | some v =>
      obtain ⟨n, lbl⟩ := v
      rcases h3 n lbl hpc2 with ⟨-, hb, -⟩
      rw [hph] at hb
      exact Phase.noConfusion hb
  have ha : st.animating = false := by rw [h4, hpc]; rfl
  unfold handleAllergenContinue
  split
  · exact startCooking_inv st st.steps hpc ha
  · cases out with
    | reject => dsimp only; exact startCooking_inv _ _ hpc ha
    | resolve ok steps2 =>
      cases ok with
      | false => dsimp only; exact startCooking_inv _ _ hpc ha
      | true =>
        cases steps2 with
        | none => dsimp only; exact startCooking_inv _ _ hpc ha
        | some newSteps => dsimp only; exact startCooking_inv _ newSteps hpc ha

/-- Every event preserves the strengthened invariant, along traces in which
end-recipe is never pressed while a commit timer is pending. -/
theorem indexInv_preserved (P : Host) (st : SessionState) (a : Act)
    (hInv : IndexInv st) (hok : a = Act.endRecipe → st.pendingCommit = none) :
    IndexInv (applyAction P st a).1 := by
  obtain ⟨h1, h2, h3, h4, h5⟩ := hInv
  cases a with
  | frame raw =>
    simp only [applyAction]
    cases he : st.esOpen with
    | true =>
      rw [if_pos rfl]
      obtain ⟨⟨e1, e2, e3, e4, e5, e6, e7, _⟩, _⟩ := handleMessage_core P.parseJson st raw
      exact IndexInv_of_fields st _ e1 e2 e3 e4 e5 e6 e7 ⟨h1, h2, h3, h4, h5⟩
    | false =>
      rw [if_neg (by simp)]
      exact ⟨h1, h2, h3, h4, h5⟩
  | next =>
    simp only [applyAction]
    by_cases hg : st.phase = Phase.coaching ∧ st.done = false
    · rw [if_pos hg]
      unfold handleNext
      cases ha : st.animating with
      | true =>
        rw [if_pos rfl]
        exact ⟨h1, h2, h3, h4, h5⟩
      | false =>
        have hpc : st.pendingCommit = none := by
          cases hpc2 : st.pendingCommit with
          | none => rfl
          | some v => rw [ha, hpc2] at h4; simp at h4
        rw [if_neg (by simp)]
        dsimp only
        by_cases hlen : st.steps.length ≤ st.currentStep + 1
        · rw [if_pos hlen]
          refine ⟨h1, h2, ?_, ?_, ?_⟩
          · exact fun n lbl hp =>
              Option.noConfusion (hpc ▸ (hp : st.pendingCommit = some (n, lbl)))
          · show false = st.pendingCommit.isSome
            rw [hpc]; rfl
          · exact fun hph2 => absurd hg.1 hph2
        · rw [if_neg hlen]
          refine ⟨Nat.le_trans h1 (Nat.le_succ _), ?_, ?_, rfl, ?_⟩
          · show st.currentStep + 1 ≤ st.steps.length
            omega
          · intro n lbl hp
            have hp2 : (some (st.currentStep + 1, st.steps.getD (st.currentStep + 1) "")
                : Option (Nat × String)) = some (n, lbl) := hp
            have hfst : st.currentStep + 1 = n := congrArg Prod.fst (Option.some.inj hp2)
            exact ⟨hfst.symm, hg.1, hg.2⟩
          · exact fun hph2 => absurd hg.1 hph2
    · rw [if_neg hg]
      exact ⟨h1, h2, h3, h4, h5⟩
  | commit =>
    simp only [applyAction]
    unfold commitStep
    cases hpc : st.pendingCommit with
    | none =>
      exact ⟨h1, h2, h3, h4, h5⟩
    | some v =>
      obtain ⟨n0, lbl0⟩ := v
      dsimp only
      rcases h3 n0 lbl0 hpc with ⟨hn, hphase, hdone⟩
      refine ⟨Nat.le_of_eq hn, h2, ?_, rfl, ?_⟩
      · exact fun n lbl hp =>
          Option.noConfusion (hp : (none : Option (Nat × String)) = some (n, lbl))
      · exact fun hph2 => absurd hphase hph2
  | endRecipe =>
    simp only [applyAction]
    by_cases hg : st.phase = Phase.coaching ∧ st.done = false
    · rw [if_pos hg]
      have hpc : st.pendingCommit = none := hok rfl
      refine ⟨Nat.le_refl 0, Nat.le_refl 0, ?_, h4, fun _ => ⟨rfl, rfl⟩⟩
      exact fun n lbl hp =>
        Option.noConfusion (hpc ▸ (hp : st.pendingCommit = some (n, lbl)))
    · rw [if_neg hg]
      exact ⟨h1, h2, h3, h4, h5⟩
  | doneRestart =>
    simp only [applyAction]
    by_cases hg : st.phase = Phase.coaching ∧ st.done = true
    · rw [if_pos hg]
      have hpc : st.pendingCommit = none := by
        cases hpc2 : st.pendingCommit with
        | none => rfl
        | some v =>
          obtain ⟨n0, lbl0⟩ := v
          rcases h3 n0 lbl0 hpc2 with ⟨-, -, hdone⟩
          rw [hg.2] at hdone
          exact Bool.noConfusion hdone
      refine ⟨Nat.le_refl 0, Nat.le_refl 0, ?_, h4, fun _ => ⟨rfl, rfl⟩⟩
      exact fun n lbl hp =>
        Option.noConfusion (hpc ▸ (hp : st.pendingCommit = some (n, lbl)))
    · rw [if_neg hg]
      exact ⟨h1, h2, h3, h4, h5⟩
  | start gen al =>
    simp only [applyAction]
    by_cases hg : st.phase = Phase.prompt
    · rw [if_pos hg]
      exact handleStart_inv st gen al ⟨h1, h2, h3, h4, h5⟩ hg
    · rw [if_neg hg]
      exact ⟨h1, h2, h3, h4, h5⟩
  | allergenContinue out =>
    simp only [applyAction]
    by_cases hg : st.phase = Phase.allergens
    · rw [if_pos hg]
      exact handleAllergenContinue_inv st out ⟨h1, h2, h3, h4, h5⟩ hg
    · rw [if_neg hg]
      exact ⟨h1, h2, h3, h4, h5⟩
  | toggle a0 =>
    simp only [applyAction]
    by_cases hg : st.phase = Phase.allergens ∧ a0 ∈ st.detectedAllergens
    · rw [if_pos hg]
      obtain ⟨e1, e2, e3, e4, e5, e6, e7⟩ := toggleAllergen_fields st a0
      exact IndexInv_of_fields st _ e1 e2 e3 e4 e5 e6 e7 ⟨h1, h2, h3, h4, h5⟩
    · rw [if_neg hg]
      exact ⟨h1, h2, h3, h4, h5⟩
  | promptChange s =>
    simp only [applyAction]
    by_cases hg : st.phase = Phase.prompt ∧ st.inputMode = InputMode.describe
    · rw [if_pos hg]
      exact IndexInv_of_fields st _ rfl rfl rfl rfl rfl rfl rfl ⟨h1, h2, h3, h4, h5⟩
    · rw [if_neg hg]
      exact ⟨h1, h2, h3, h4, h5⟩
  | urlChange s =>
    simp only [applyAction]
    by_cases hg : st.phase = Phase.prompt ∧ st.inputMode = InputMode.url
    · rw [if_pos hg]
      obtain ⟨e1, e2, e3, e4, e5, e6, e7⟩ := handleUrlChange_fields P.urlProtocol st s
      exact IndexInv_of_fields st _ e1 e2 e3 e4 e5 e6 e7 ⟨h1, h2, h3, h4, h5⟩
    · rw [if_neg hg]
      exact ⟨h1, h2, h3, h4, h5⟩
  | switchTo m =>
    simp only [applyAction]
    by_cases hg : st.phase = Phase.prompt
    · rw [if_pos hg]
      exact IndexInv_of_fields st _ rfl rfl rfl rfl rfl rfl rfl ⟨h1, h2, h3, h4, h5⟩
    · rw [if_neg hg]
      exact ⟨h1, h2, h3, h4, h5⟩
  | urlTimerFire =>
    simp only [applyAction]
    obtain ⟨e1, e2, e3, e4, e5, e6, e7⟩ := fireUrlTimer_fields st
    exact IndexInv_of_fields st _ e1 e2 e3 e4 e5 e6 e7 ⟨h1, h2, h3, h4, h5⟩
  | ttsSettle success =>
    simp only [applyAction]
    obtain ⟨e1, e2, e3, e4, e5, e6, e7⟩ := ttsResolve_fields st success
    exact IndexInv_of_fields st _ e1 e2 e3 e4 e5 e6 e7 ⟨h1, h2, h3, h4, h5⟩
  | announceSettle detail =>
    simp only [applyAction]
    obtain ⟨e1, e2, e3, e4, e5, e6, e7⟩ := announceResolve_fields st detail
    exact IndexInv_of_fields st _ e1 e2 e3 e4 e5 e6 e7 ⟨h1, h2, h3, h4, h5⟩
  | audioDone =>
    simp only [applyAction]
    exact IndexInv_of_fields st _ rfl rfl rfl rfl rfl rfl rfl ⟨h1, h2, h3, h4, h5⟩

/-- C6 amended: along every trace in which end-recipe is not invoked while a
step transition is in flight, every reachable state satisfies
`0 ≤ displayStepIndex ≤ currentStepIndex ≤ steps.length` (the lower bound is
inherent to `Nat`); ending the recipe inside the transition window breaks
the ordering, because the un-cancelled commit timer then moves
`displayStepIndex` past the reset `currentStepIndex` and step list. -/
theorem index_order_invariant (P : Host) (st : SessionState)
    (h : ReachableNoAbort P st) :
    st.displayStep ≤ st.currentStep ∧ st.currentStep ≤ st.steps.length := by
  have hInv : IndexInv st := by
    induction h with
    | init => exact indexInv_init
    | step st a h hok ih => exact indexInv_preserved P st a ih hok
  exact ⟨hInv.1, hInv.2.1⟩

/-- Witness for the amended C6 at the initial state. -/
theorem index_order_invariant_w :
    initState.displayStep ≤ initState.currentStep
    ∧ initState.currentStep ≤ initState.steps.length :=
  index_order_invariant demoHost initState ReachableNoAbort.init
